import Mathlib

/-!
# Verification of the Customer-Support RAG pipeline

A shallow embedding of the decision-bearing code of the repository:

* `src/src/qdrant_client.py` — metadata cleaning, upload, semantic/hybrid
  search and the unified `search` router (`QdrantVectorStore`);
* `src/src/rag_chain.py` — the `RAGPipeline.generate_response` state machine
  (greeting short-circuit, retrieval, fallback, LLM call, error boundary);
* `src/src/redis_memory.py` — `RedisMemory.get_history` tail slicing.

External collaborators (the Qdrant service, the embedding API, the LLM, the
random source) are modelled as explicit oracle inputs; Python floats are
modelled as rationals (`ℚ`); Python exceptions as `Except`.
-/

namespace CustomerSupport

/-! ## Python metadata values (`clean_metadata`, qdrant_client.py lines 14-42)

`PyVal` models the Python values that can appear in a metadata mapping:
the scalar types (`None`, `int`, `float`, `str`, `bool`), numpy numbers
(`np.integer` / `np.floating`, the two kinds of `np.number`), and any other
object, represented by its `str()` form. -/

inductive PyVal
  | none
  | int (n : ℤ)
  | float (q : ℚ)
  | str (s : String)
  | bool (b : Bool)
  | npInt (n : ℤ)
  | npFloat (q : ℚ)
  | other (s : String)
  deriving DecidableEq, Repr

/-- Python `value.replace('.', '', 1)` on the character list: remove the
first occurrence of `'.'` only. -/
def removeFirstDot : List Char → List Char
  | [] => []
  | c :: rest => if c = '.' then rest else c :: removeFirstDot rest

/-- Python `s.replace('.', '', 1).isdigit()` (restricted to ASCII digits):
true iff after dropping the first dot the string is nonempty and all digits. -/
def isNumericString (s : String) : Bool :=
  let t := removeFirstDot s.data
  !t.isEmpty && t.all (fun c => c.isDigit)

/-- Value of a list of decimal digit characters. -/
def digitsToNat (l : List Char) : ℕ :=
  l.foldl (fun n c => 10 * n + (c.toNat - Char.toNat '0')) 0

/-- Split a character list at the first `'.'` (integer part, fractional part). -/
def splitAtDot : List Char → List Char × List Char
  | [] => ([], [])
  | c :: rest =>
    if c = '.' then ([], rest)
    else
      let p := splitAtDot rest
      (c :: p.1, p.2)

/-- Python `int(s)` on an all-digits string. -/
def pyInt (s : String) : ℤ :=
  (digitsToNat s.data : ℤ)

/-- Python `float(s)` on a digits-with-one-dot string (written with `mkRat`
so that the kernel can evaluate it: the value is intpart + fracpart/10^k). -/
def pyFloat (s : String) : ℚ :=
  let p := splitAtDot s.data
  mkRat (digitsToNat p.1 * 10 ^ p.2.length + digitsToNat p.2) (10 ^ p.2.length)

/-- The per-value branch structure of `clean_metadata`
(qdrant_client.py lines 17-40): `None` kept; numpy numbers converted to
native `int`/`float`; numeric strings parsed to `int` (no dot) or `float`
(with dot); remaining scalars kept; everything else stringified. -/
def cleanValue : PyVal → PyVal
  | .none => .none
  | .npInt n => .int n
  | .npFloat q => .float q
  | .str s =>
    if isNumericString s then
      if s.data.contains '.' then .float (pyFloat s) else .int (pyInt s)
    else .str s
  | .int n => .int n
  | .float q => .float q
  | .bool b => .bool b
  | .other s => .str s

/-- `clean_metadata` (qdrant_client.py lines 14-42): a metadata mapping is an
association list (Python dicts preserve insertion order); each value is
cleaned, keys are untouched. -/
def cleanMetadata (md : List (String × PyVal)) : List (String × PyVal) :=
  md.map (fun p => (p.1, cleanValue p.2))

/-- The vector store's scalar type set (null, int, float, string, bool). -/
def isScalar : PyVal → Bool
  | .none => true
  | .int _ => true
  | .float _ => true
  | .str _ => true
  | .bool _ => true
  | _ => false

/-- Whether a `PyVal` is a numeric string (the values `clean_metadata`
re-parses rather than keeps). -/
def isNumericStrVal : PyVal → Bool
  | .str s => isNumericString s
  | _ => false

/-! ## Qdrant points, hits and formatted search results -/

/-- A stored point's payload: `{"text": text, **metadata}` as built by
`upload_data` (qdrant_client.py lines 108-114). The `"text"` key is kept
separate from the remaining metadata keys. -/
structure Payload where
  ptext : String
  extra : List (String × PyVal)
  deriving DecidableEq, Repr

/-- A raw hit as returned by the Qdrant client's `search` call:
payload, similarity score, point id. -/
structure Hit where
  payload : Payload
  score : ℚ
  hid : ℕ
  deriving DecidableEq, Repr

/-- A formatted search result (qdrant_client.py lines 213-218):
`{"text": payload["text"], "metadata": payload minus "text", "score", "id"}`. -/
structure SearchResult where
  text : String
  metadata : List (String × PyVal)
  score : ℚ
  rid : ℕ
  deriving DecidableEq, Repr

/-- Formatting of one hit into a search result. -/
def formatHit (h : Hit) : SearchResult :=
  ⟨h.payload.ptext, h.payload.extra, h.score, h.hid⟩

/-! ## `semantic_search` (qdrant_client.py lines 181-224)

The Qdrant client call `self.client.search(..., limit=limit*2)` is modelled
by taking the first `limit * 2` elements of `stored`, the service's ranked
(score-descending) hit list for the query. The filter loop appends hits with
`score >= threshold` and breaks as soon as `limit` survivors are collected. -/

/-- The filter loop of `semantic_search` (lines 210-222), with the
accumulated `filtered_results` made explicit. -/
def semanticFilter (threshold : ℚ) (limit : ℕ) : List Hit → List SearchResult → List SearchResult
  | [], acc => acc
  | h :: rest, acc =>
    if threshold ≤ h.score then
      let acc2 := acc ++ [formatHit h]
      if limit ≤ acc2.length then acc2 else semanticFilter threshold limit rest acc2
    else semanticFilter threshold limit rest acc

/-- `semantic_search`: over-fetch `limit * 2` candidates, then filter. -/
def semanticSearch (stored : List Hit) (threshold : ℚ) (limit : ℕ) : List SearchResult :=
  semanticFilter threshold limit (stored.take (limit * 2)) []

/-! ## `hybrid_search` and the `search` router (qdrant_client.py 140-179, 226-252) -/

/-- `hybrid_search` (lines 140-179): the store's combined vector+keyword
ranking (with any category filter already applied by the service) is the
oracle list `stored`; the client returns at most `limit` of them, formatted.
No threshold filtering is applied. -/
def hybridSearch (stored : List Hit) (limit : ℕ) : List SearchResult :=
  (stored.take limit).map formatHit

/-- Errors raised by `search` (both are `ValueError` in Python; the spec's
taxonomy names the unrecognized-mode one `InvalidModeError`). -/
inductive SearchErr
  | invalidMode (mode : String)
  | missingQuery
  deriving DecidableEq, Repr

/-- The unified `search` router (lines 226-252): `"semantic"` delegates to
`semantic_search`; `"hybrid"` requires `query` and delegates to
`hybrid_search`; any other mode raises. `semStored` / `hybStored` are the
service's ranked hit lists for the two underlying client calls. -/
def search (semStored hybStored : List Hit) (query : Option String) (mode : String)
    (threshold : ℚ) (limit : ℕ) (hybLimit : ℕ) : Except SearchErr (List SearchResult) :=
  if mode = "semantic" then .ok (semanticSearch semStored threshold limit)
  else if mode = "hybrid" then
    match query with
    | Option.none => .error .missingQuery
    | Option.some _ => .ok (hybridSearch hybStored hybLimit)
  else .error (.invalidMode mode)

/-! ## C1: semantic_search respects threshold and limit -/

lemma semanticFilter_score (t : ℚ) (n : ℕ) :
    ∀ (hits : List Hit) (acc : List SearchResult),
      (∀ r ∈ acc, t ≤ r.score) → ∀ r ∈ semanticFilter t n hits acc, t ≤ r.score := by
  intro hits
  induction hits with
  | nil => intro acc hacc r hr; exact hacc r hr
  | cons h rest ih =>
    intro acc hacc r hr
    have hstep : ∀ r2 ∈ acc ++ [formatHit h], t ≤ h.score → t ≤ r2.score := by
      intro r2 hr2 hs
      rcases List.mem_append.1 hr2 with h1 | h1
      · exact hacc r2 h1
      · simp only [List.mem_singleton] at h1
        subst h1
        simpa [formatHit] using hs
    by_cases hs : t ≤ h.score
    · simp only [semanticFilter, if_pos hs] at hr
      by_cases hl : n ≤ (acc ++ [formatHit h]).length
      · rw [if_pos hl] at hr
        exact hstep r hr hs
      · rw [if_neg hl] at hr
        exact ih _ (fun r2 hr2 => hstep r2 hr2 hs) r hr
    · simp only [semanticFilter, if_neg hs] at hr
      exact ih _ hacc r hr

lemma semanticFilter_length (t : ℚ) (n : ℕ) :
    ∀ (hits : List Hit) (acc : List SearchResult),
      acc.length < n → (semanticFilter t n hits acc).length ≤ n := by
  intro hits
  induction hits with
  | nil => intro acc hacc; simpa [semanticFilter] using Nat.le_of_lt hacc
  | cons h rest ih =>
    intro acc hacc
    by_cases hs : t ≤ h.score
    · simp only [semanticFilter, if_pos hs]
      by_cases hl : n ≤ (acc ++ [formatHit h]).length
      · rw [if_pos hl]
        simpa using hacc
      · rw [if_neg hl]
        exact ih _ (Nat.lt_of_not_le hl)
    · simp only [semanticFilter, if_neg hs]
      exact ih _ hacc

/-- C1: for every threshold `t ∈ [0,1]` and every limit `n`,
`semantic_search(threshold=t, limit=n)` returns no result with score below
`t`, and returns at most `n` results. -/
theorem C1_semantic_search_threshold_limit (stored : List Hit) (t : ℚ) (n : ℕ)
    (ht0 : 0 ≤ t) (ht1 : t ≤ 1) :
    (∀ r ∈ semanticSearch stored t n, t ≤ r.score) ∧
      (semanticSearch stored t n).length ≤ n := by
  constructor
  · exact semanticFilter_score t n _ [] (by simp)
  · rcases Nat.eq_zero_or_pos n with h | h
    · subst h
      simp [semanticSearch, semanticFilter]
    · exact semanticFilter_length t n _ [] (by simpa using h)

/-- Witness for C1 at threshold 1/2, limit 3, one stored hit of score 9/10. -/
theorem C1_witness :
    (0 : ℚ) ≤ 1/2 ∧ (1 : ℚ)/2 ≤ 1 ∧
      ((∀ r ∈ semanticSearch [⟨⟨"q1", []⟩, 9/10, 0⟩] (1/2) 3, (1 : ℚ)/2 ≤ r.score) ∧
        (semanticSearch [⟨⟨"q1", []⟩, 9/10, 0⟩] (1/2) 3).length ≤ 3) :=
  ⟨by norm_num, by norm_num,
    C1_semantic_search_threshold_limit [⟨⟨"q1", []⟩, 9/10, 0⟩] (1/2) 3
      (by norm_num) (by norm_num)⟩

/-! ## `RAGPipeline` (rag_chain.py)

The collaborators of `generate_response` — the embedding client, the Qdrant
service, the LLM, and `random.choice` — are oracles supplied as input.
A call either returns a value or raises, modelled by `Except String`
(the `String` is `str(e)` of the exception). -/

/-- The fixed greeting phrase set (rag_chain.py lines 134-138). -/
def greetings : List String :=
  ["hello", "hi", "hey", "greetings",
   "good morning", "good afternoon", "good evening",
   "namaste", "salam", "hola", "hi there", "helloo"]

/-- The characters stripped by `text.lower().strip(" ?!.,")`. -/
def stripChars : List Char := [' ', '?', '!', '.', ',']

/-- Python `s.strip(" ?!.,")`: drop those characters from both ends. -/
def pyStrip (s : String) : String :=
  ⟨((s.data.dropWhile (fun c => stripChars.contains c)).reverse.dropWhile
      (fun c => stripChars.contains c)).reverse⟩

/-- Python `s.lower()` (ASCII case mapping, which covers every phrase in
the greeting set). -/
def toLowerStr (s : String) : String :=
  ⟨s.data.map Char.toLower⟩

/-- Python `needle in hay` substring containment on character lists. -/
def containsSub (hay needle : List Char) : Bool :=
  if needle.isPrefixOf hay then true
  else
    match hay with
    | [] => false
    | _ :: rest => containsSub rest needle

/-- `RAGPipeline._is_greeting` (rag_chain.py lines 132-140): lowercase,
strip surrounding whitespace/punctuation, then test whether any greeting
phrase occurs as a substring. -/
def isGreeting (text : String) : Bool :=
  let t := pyStrip (toLowerStr text)
  greetings.any (fun g => containsSub t.data g.data)

/-- The fixed greeting-response set (rag_chain.py lines 31-35). -/
def greetingResponses : List String :=
  ["ðŸ›ï¸ Welcome to [Brand] Support! How can I help with:\n- Orders\n- Returns\n- Payments\n- Account issues",
   "ðŸ‘‹ Hello! I'm your shopping assistant. What can I help you with today?",
   "ðŸŒŸ Welcome back! Need help with your recent order or account?"]

/-- The fixed fallback-response set (rag_chain.py lines 38-42). -/
def fallbackResponses : List String :=
  ["Let me check... I couldn't find exact information, but try:\n1. Our help center: [link]\n2. Email support@example.com",
   "I'm still learning about this. For immediate help:\nâ€¢ Visit our FAQ\nâ€¢ Contact live chat",
   "This topic isn't in my knowledge base yet. Our team can help at support@example.com"]

/-- The error-boundary answer (rag_chain.py line 108): the apology string
embedding `str(e)`. -/
def errorAnswer (e : String) : String :=
  "âš ï¸ Sorry, I encountered an error. Please try again later.\n(Error: " ++ e ++ ")"

/-- `random.choice(lst)` modelled by an oracle index reduced mod length. -/
def pick (i : ℕ) (l : List String) : String :=
  l.getD (i % l.length) ""

/-- Python `f"{q:.0%}"`: percent with zero decimals, rounding half to even. -/
def formatPercent (q : ℚ) : String :=
  let y := q * 100
  let n := ⌊y⌋
  let frac := y - n
  let r : ℤ :=
    if mkRat 1 2 < frac then n + 1
    else if frac < mkRat 1 2 then n
    else if n % 2 = 0 then n else n + 1
  toString r ++ "%"

/-- Python `dict.get(key, default)` on an association-list metadata mapping. -/
def metaGet (md : List (String × PyVal)) (key : String) (dflt : String) : String :=
  match md.find? (fun p => p.1 = key) with
  | Option.none => dflt
  | Option.some p =>
    match p.2 with
    | .str s => s
    | .int n => toString n
    | .float q => toString q
    | .bool b => if b then "True" else "False"
    | .none => "None"
    | .npInt n => toString n
    | .npFloat q => toString q
    | .other s => s

/-- One context line of `RAGPipeline._format_context` (rag_chain.py 115-121). -/
def formatContextLine (i : ℕ) (r : SearchResult) : String :=
  "MATCH #" ++ toString i ++ " (Relevance: " ++ formatPercent r.score ++ "):\n" ++
  "QUESTION: " ++ r.text ++ "\n" ++
  "ANSWER: " ++ metaGet r.metadata "answer" "No specific answer found" ++ "\n" ++
  "SOURCE: " ++ metaGet r.metadata "source" "General Knowledge" ++ "\n"

/-- `RAGPipeline._format_context` (rag_chain.py lines 112-122): enumerate
results 1-indexed and join the lines with newlines. -/
def formatContext (results : List SearchResult) : String :=
  String.intercalate "\n" (results.enum.map (fun p => formatContextLine (p.1 + 1) p.2))

/-- The fixed instruction template (rag_chain.py lines 45-66) rendered with
`{context}` and `{question}` substituted. -/
def renderPrompt (context question : String) : String :=
  "\n            As an e-commerce support expert, create a helpful response using these guidelines:\n            \n            1. CONTEXT:\n            "
  ++ context ++
  "\n            \n            2. QUESTION: \n            "
  ++ question ++
  "\n            \n            3. RESPONSE REQUIREMENTS:\n            - Answer directly and precisely\n            - Use bullet points for steps\n            - Include examples where helpful\n            - Add warning notes if applicable\n            - Keep tone professional but friendly\n            - Never invent information\n            \n            FINAL ANSWER:\n            "

/-- A Pipeline Response: `{"answer": ..., "sources": ...}`. -/
structure Response where
  answer : String
  sources : List SearchResult
  deriving DecidableEq, Repr

/-- Which collaborator calls `generate_response` performed. -/
structure CallLog where
  embedCalled : Bool
  searchCalled : Bool
  llmCalled : Bool
  deriving DecidableEq, Repr

/-- The collaborator oracles for one `generate_response` call:
`greetIdx` / `fallbackIdx` drive `random.choice`; `embed` is the embedding
client's outcome on the query; `store` is the Qdrant client call's outcome
(the service's ranked hit list, or a raised error); `llm` maps the rendered
prompt to the completion or a raised error. -/
structure Oracles where
  greetIdx : ℕ
  fallbackIdx : ℕ
  embed : Except String (List ℚ)
  store : Except String (List Hit)
  llm : String → Except String String

/-- The threshold used by `generate_response` (rag_chain.py line 84): 0.65. -/
def pipelineThreshold : ℚ := mkRat 13 20

/-- `RAGPipeline.generate_response` (rag_chain.py lines 68-110), with the
performed collaborator calls logged. Greeting short-circuit; embed; search
in `semantic` mode at threshold 0.65, limit 3 (the router always takes the
semantic branch here); fallback on empty results; context assembly and one
LLM call; the error boundary turns any raised step into `errorAnswer`. -/
def generateResponse (o : Oracles) (query : String) : Response × CallLog :=
  if isGreeting query then
    (⟨pick o.greetIdx greetingResponses, []⟩, ⟨false, false, false⟩)
  else
    match o.embed with
    | .error e => (⟨errorAnswer e, []⟩, ⟨true, false, false⟩)
    | .ok _ =>
      match o.store with
      | .error e => (⟨errorAnswer e, []⟩, ⟨true, true, false⟩)
      | .ok hits =>
        let results := semanticSearch hits pipelineThreshold 3
        if results.isEmpty then
          (⟨pick o.fallbackIdx fallbackResponses, []⟩, ⟨true, true, false⟩)
        else
          match o.llm (renderPrompt (formatContext results) query) with
          | .error e => (⟨errorAnswer e, []⟩, ⟨true, true, true⟩)
          | .ok resp => (⟨resp, results⟩, ⟨true, true, true⟩)

/-! ## C2-C5: properties of `generate_response` -/

lemma pick_mem (i : ℕ) (l : List String) (h : l ≠ []) : pick i l ∈ l := by
  have hlen : i % l.length < l.length := Nat.mod_lt _ (List.length_pos.2 h)
  unfold pick
  rw [List.getD_eq_getElem _ _ hlen]
  exact List.getElem_mem hlen

/-- C2: for every query whose lowercased, punctuation-stripped form contains
a greeting phrase as a substring, `generate_response` answers from the fixed
greeting-response set with empty sources, and performs no embedding or
retrieval call. -/
theorem C2_greeting_short_circuit (o : Oracles) (q : String)
    (h : isGreeting q = true) :
    (generateResponse o q).1.answer ∈ greetingResponses ∧
      (generateResponse o q).1.sources = [] ∧
      (generateResponse o q).2.embedCalled = false ∧
      (generateResponse o q).2.searchCalled = false := by
  simp only [generateResponse, h, if_true]
  exact ⟨pick_mem _ _ (by simp [greetingResponses]), by trivial, by trivial, by trivial⟩

/-- Witness for C2 on the query `"Hello!"`. -/
theorem C2_witness :
    isGreeting "Hello!" = true ∧
      ((generateResponse ⟨0, 0, .ok [], .ok [], fun _ => .ok ""⟩ "Hello!").1.answer
          ∈ greetingResponses ∧
        (generateResponse ⟨0, 0, .ok [], .ok [], fun _ => .ok ""⟩ "Hello!").1.sources = [] ∧
        (generateResponse ⟨0, 0, .ok [], .ok [], fun _ => .ok ""⟩ "Hello!").2.embedCalled = false ∧
        (generateResponse ⟨0, 0, .ok [], .ok [], fun _ => .ok ""⟩ "Hello!").2.searchCalled = false) :=
  ⟨by decide, C2_greeting_short_circuit _ "Hello!" (by decide)⟩

/-- C3: for every non-greeting query whose semantic search at threshold 0.65
and limit 3 succeeds with an empty result sequence, `generate_response`
answers from the fixed fallback-response set with empty sources. -/
theorem C3_fallback_on_empty_results (o : Oracles) (q : String) (v : List ℚ) (hits : List Hit)
    (hg : isGreeting q = false)
    (hembed : o.embed = .ok v)
    (hstore : o.store = .ok hits)
    (hempty : semanticSearch hits pipelineThreshold 3 = []) :
    (generateResponse o q).1.answer ∈ fallbackResponses ∧
      (generateResponse o q).1.sources = [] := by
  simp only [generateResponse, hg, Bool.false_eq_true, if_false, hembed, hstore, hempty,
    List.isEmpty_nil, if_true]
  exact ⟨pick_mem _ _ (by simp [fallbackResponses]), by trivial⟩

/-- Witness for C3: a non-greeting query with a store whose only hit scores
below 0.65, so the semantic search is empty. -/
theorem C3_witness :
    isGreeting "where is my refund" = false ∧
      semanticSearch [⟨⟨"t", []⟩, mkRat 1 2, 0⟩] pipelineThreshold 3 = [] ∧
      ((generateResponse ⟨0, 0, .ok [1], .ok [⟨⟨"t", []⟩, mkRat 1 2, 0⟩], fun _ => .ok ""⟩
            "where is my refund").1.answer ∈ fallbackResponses ∧
        (generateResponse ⟨0, 0, .ok [1], .ok [⟨⟨"t", []⟩, mkRat 1 2, 0⟩], fun _ => .ok ""⟩
            "where is my refund").1.sources = []) :=
  ⟨by decide, by decide,
    C3_fallback_on_empty_results _ "where is my refund" [1] [⟨⟨"t", []⟩, mkRat 1 2, 0⟩]
      (by decide) rfl rfl (by decide)⟩

/-- C4: `generate_response` never raises (it is a total function here); when
the embedding call, the retrieval call, or the LLM call raises `e`, the
result is the apology answer embedding `e` with empty sources. -/
theorem C4_error_boundary (o : Oracles) (q e : String)
    (hg : isGreeting q = false)
    (hcase :
      o.embed = .error e ∨
      (∃ v, o.embed = .ok v ∧ o.store = .error e) ∨
      (∃ v hits, o.embed = .ok v ∧ o.store = .ok hits ∧
        semanticSearch hits pipelineThreshold 3 ≠ [] ∧
        o.llm (renderPrompt (formatContext (semanticSearch hits pipelineThreshold 3)) q)
          = .error e)) :
    (generateResponse o q).1 = ⟨errorAnswer e, []⟩ := by
  rcases hcase with h1 | ⟨v, h1, h2⟩ | ⟨v, hits, h1, h2, h3, h4⟩
  · simp [generateResponse, hg, h1]
  · simp [generateResponse, hg, h1, h2]
  · simp only [generateResponse, hg, Bool.false_eq_true, if_false, h1, h2]
    rw [if_neg (by simpa [List.isEmpty_iff] using h3)]
    rw [h4]

/-- Witness for C4: the embedding client raises `"quota"`. -/
theorem C4_witness :
    isGreeting "track my order" = false ∧
      (generateResponse ⟨0, 0, .error "quota", .ok [], fun _ => .ok ""⟩ "track my order").1
        = ⟨errorAnswer "quota", []⟩ :=
  ⟨by decide,
    C4_error_boundary ⟨0, 0, .error "quota", .ok [], fun _ => .ok ""⟩ "track my order" "quota"
      (by decide) (Or.inl rfl)⟩

/-- A stored hit scoring 9/10 (above the 0.65 threshold), used to exhibit
the C5 counterexample. -/
def hitC5 : Hit := ⟨⟨"How do I return an item?", [("answer", PyVal.str "Use the portal")]⟩, mkRat 9 10, 0⟩

/-- Oracles for the C5 counterexample: embedding and retrieval succeed with
one qualifying hit, the LLM call raises. -/
def oC5 : Oracles := ⟨0, 0, .ok [1], .ok [hitC5], fun _ => .error "llm down"⟩

/-- C5 counterexample: retrieval returned a non-empty result sequence, yet
`sources` is empty because the LLM call failed and the error boundary
replied — refuting "`sources` is non-empty exactly when retrieval returned a
non-empty result sequence". -/
theorem C5_counterexample :
    semanticSearch [hitC5] pipelineThreshold 3 ≠ [] ∧
      (generateResponse oC5 "what").1.sources = [] := by
  constructor
  · decide
  · decide

/-- C5 (amended): `sources` is empty on the greeting, fallback and error
branches, and is non-empty exactly when retrieval returned a non-empty
result sequence *and the subsequent LLM call succeeded*, in which case
`sources` equals the retrieved sequence. -/
theorem C5_amended_sources_invariant (o : Oracles) (q : String) :
    ((generateResponse o q).1.sources ≠ [] ↔
      (isGreeting q = false ∧ ∃ v hits ans,
        o.embed = .ok v ∧ o.store = .ok hits ∧
        semanticSearch hits pipelineThreshold 3 ≠ [] ∧
        o.llm (renderPrompt (formatContext (semanticSearch hits pipelineThreshold 3)) q)
          = .ok ans)) ∧
    (∀ v hits ans,
      isGreeting q = false → o.embed = .ok v → o.store = .ok hits →
      o.llm (renderPrompt (formatContext (semanticSearch hits pipelineThreshold 3)) q)
        = .ok ans →
      (generateResponse o q).1.sources = semanticSearch hits pipelineThreshold 3) := by
  by_cases hg : isGreeting q
  · constructor
    · simp [generateResponse, hg]
    · intro v hits ans hg2 _ _ _
      rw [hg] at hg2
      exact absurd hg2 (by simp)
  · have hg2 : isGreeting q = false := by simpa using hg
    cases hembed : o.embed with
    | error e =>
      constructor
      · simp [generateResponse, hg2, hembed]
      · intro v hits ans _ hv _ _
        exact absurd hv (by simp)
    | ok v0 =>
      cases hstore : o.store with
      | error e =>
        constructor
        · simp [generateResponse, hg2, hembed, hstore]
        · intro v hits ans _ _ hh _
          exact absurd hh (by simp)
      | ok hits0 =>
        by_cases hres : semanticSearch hits0 pipelineThreshold 3 = []
        · constructor
          · simp only [generateResponse, hg2, Bool.false_eq_true, if_false, hembed, hstore]
            rw [if_pos (by simp [hres])]
            simp only [ne_eq, not_true_eq_false, false_iff, not_and]
            intro _
            rintro ⟨v, hits, ans, _, hh, hne, _⟩
            obtain rfl : hits0 = hits := by simpa using hh
            exact hne hres
          · intro v hits ans _ _ hh _
            obtain rfl : hits0 = hits := by simpa using hh
            simp only [generateResponse, hg2, Bool.false_eq_true, if_false, hembed, hstore]
            rw [if_pos (by simp [hres])]
            exact hres.symm
        · cases hllm : o.llm (renderPrompt (formatContext
              (semanticSearch hits0 pipelineThreshold 3)) q) with
          | error e =>
            constructor
            · simp only [generateResponse, hg2, Bool.false_eq_true, if_false, hembed, hstore]
              rw [if_neg (by simpa [List.isEmpty_iff] using hres)]
              rw [hllm]
              simp only [ne_eq, not_true_eq_false, false_iff, not_and]
              intro _
              rintro ⟨v, hits, ans, _, hh, _, hok⟩
              obtain rfl : hits0 = hits := by simpa using hh
              rw [hllm] at hok
              exact absurd hok (by simp)
            · intro v hits ans _ _ hh hok
              obtain rfl : hits0 = hits := by simpa using hh
              rw [hllm] at hok
              exact absurd hok (by simp)
          | ok ans0 =>
            constructor
            · simp only [generateResponse, hg2, Bool.false_eq_true, if_false, hembed, hstore]
              rw [if_neg (by simpa [List.isEmpty_iff] using hres)]
              rw [hllm]
              constructor
              · intro _
                exact ⟨by trivial, v0, hits0, ans0, rfl, rfl, hres, hllm⟩
              · intro _
                exact hres
            · intro v hits ans _ _ hh _
              obtain rfl : hits0 = hits := by simpa using hh
              simp only [generateResponse, hg2, Bool.false_eq_true, if_false, hembed, hstore]
              rw [if_neg (by simpa [List.isEmpty_iff] using hres)]
              rw [hllm]

/-- Witness for C5 (amended): successful end-to-end run where `sources`
equals the retrieval sequence. -/
theorem C5_witness :
    (generateResponse ⟨0, 0, .ok [1], .ok [hitC5], fun _ => .ok "done"⟩ "what").1.sources
      = semanticSearch [hitC5] pipelineThreshold 3 :=
  (C5_amended_sources_invariant ⟨0, 0, .ok [1], .ok [hitC5], fun _ => .ok "done"⟩ "what").2
    [1] [hitC5] "done" (by decide) rfl rfl rfl

/-! ## C6: the `search` router's mode errors -/

/-- C6: `search` raises `InvalidModeError` for every mode other than
`"semantic"` and `"hybrid"`; raises when mode is `"hybrid"` and the query
text is absent; and returns a result (no mode error) for `"semantic"` and
for `"hybrid"` with a query. -/
theorem C6_search_mode_errors (semStored hybStored : List Hit) (oq : Option String)
    (q : String) (t : ℚ) (n m : ℕ) (mode : String)
    (h1 : mode ≠ "semantic") (h2 : mode ≠ "hybrid") :
    search semStored hybStored oq mode t n m = .error (.invalidMode mode) ∧
      search semStored hybStored Option.none "hybrid" t n m = .error .missingQuery ∧
      (∃ rs, search semStored hybStored oq "semantic" t n m = .ok rs) ∧
      (∃ rs, search semStored hybStored (Option.some q) "hybrid" t n m = .ok rs) := by
  refine ⟨by simp [search, h1, h2], by simp [search], ?_, ?_⟩
  · exact ⟨semanticSearch semStored t n, by simp [search]⟩
  · exact ⟨hybridSearch hybStored m, by simp [search]⟩

/-- Witness for C6 at the unrecognized mode `"fuzzy"`. -/
theorem C6_witness :
    search [] [] Option.none "fuzzy" 0 3 5 = .error (.invalidMode "fuzzy") ∧
      search [] [] Option.none "hybrid" 0 3 5 = .error .missingQuery ∧
      (∃ rs, search [] [] Option.none "semantic" 0 3 5 = .ok rs) ∧
      (∃ rs, search [] [] (Option.some "refund") "hybrid" 0 3 5 = .ok rs) :=
  C6_search_mode_errors [] [] Option.none "refund" 0 3 5 "fuzzy"
    (by decide) (by decide)

/-! ## C7: `clean_metadata` -/

lemma isScalar_cleanValue (v : PyVal) : isScalar (cleanValue v) = true := by
  cases v <;> try rfl
  rename_i s
  by_cases h : isNumericString s
  · by_cases hd : '.' ∈ s.data
    · simp [cleanValue, h, hd, isScalar]
    · simp [cleanValue, h, hd, isScalar]
  · simp [cleanValue, h, isScalar]

/-- C7 counterexample: the numeric string `"123"` is already of a scalar
type, yet `clean_metadata` converts it to the integer `123` — refuting
"values that are already of a scalar type are kept unchanged". -/
theorem C7_counterexample :
    cleanMetadata [("k", PyVal.str "123")] = [("k", PyVal.int 123)] ∧
      isScalar (PyVal.str "123") = true ∧
      PyVal.str "123" ≠ PyVal.int 123 := by
  refine ⟨by decide, rfl, by decide⟩

/-- C7 (amended): `clean_metadata` keeps the keys; every output value is of
a scalar type; scalar values are kept unchanged *except numeric strings*
(digits with at most one dot), which are parsed to int (no dot) or float
(with a dot); numpy numbers are converted to native int/float; every other
non-scalar value is stringified. -/
theorem C7_amended_clean_metadata (md : List (String × PyVal)) :
    ((cleanMetadata md).map Prod.fst = md.map Prod.fst) ∧
      (∀ p ∈ cleanMetadata md, isScalar p.2 = true) ∧
      (∀ k v, (k, v) ∈ md → (k, cleanValue v) ∈ cleanMetadata md) ∧
      (∀ v, isScalar v = true → isNumericStrVal v = false → cleanValue v = v) ∧
      (∀ s, isNumericString s = true →
        cleanValue (PyVal.str s) =
          (if s.data.contains '.' then PyVal.float (pyFloat s) else PyVal.int (pyInt s))) ∧
      (∀ n, cleanValue (PyVal.npInt n) = PyVal.int n) ∧
      (∀ q, cleanValue (PyVal.npFloat q) = PyVal.float q) ∧
      (∀ s, cleanValue (PyVal.other s) = PyVal.str s) := by
  refine ⟨?_, ?_, ?_, ?_, ?_, fun n => rfl, fun q => rfl, fun s => rfl⟩
  · simp [cleanMetadata]
  · intro p hp
    simp only [cleanMetadata, List.mem_map] at hp
    obtain ⟨r, _, rfl⟩ := hp
    exact isScalar_cleanValue r.2
  · intro k v h
    exact List.mem_map.2 ⟨(k, v), h, rfl⟩
  · intro v hs hns
    cases v with
    | str s =>
      simp only [isNumericStrVal] at hns
      simp [cleanValue, hns]
    | npInt n => simp [isScalar] at hs
    | npFloat q => simp [isScalar] at hs
    | other s => simp [isScalar] at hs
    | none => rfl
    | int n => rfl
    | float q => rfl
    | bool b => rfl
  · intro s hs
    simp [cleanValue, hs]

/-- Witness for C7 (amended): booleans pass through unchanged; a numpy
integer becomes a native integer. -/
theorem C7_witness :
    cleanValue (PyVal.bool true) = PyVal.bool true ∧
      cleanValue (PyVal.npInt 7) = PyVal.int 7 :=
  ⟨(C7_amended_clean_metadata []).2.2.2.1 (PyVal.bool true) rfl rfl,
    (C7_amended_clean_metadata []).2.2.2.2.2.1 7⟩

/-! ## `upload_data` (qdrant_client.py lines 88-138)

A point record is `(id, vector, payload)`. The Qdrant collection is keyed
by integer id and `upload_points` upserts by id, so the collection state is
modelled as a map from id to point. The per-batch client call either
succeeds or raises; `ok k` is that outcome for batch `k`. The `print`
logging on failure is an I/O side effect with no state impact and is not
modelled; what is modelled is that the original error is re-raised
(`raise`), carrying the failing batch index `i // batch_size`. -/

/-- A point record as uploaded to Qdrant (`models.PointStruct`). -/
structure Point where
  pid : ℕ
  vector : List ℚ
  payload : Payload
  deriving DecidableEq, Repr

/-- The Qdrant collection state: points keyed by integer id. -/
def StoreState := ℕ → Option Point

/-- Upsert one point: the point with its id is replaced or inserted. -/
def upsertOne (st : StoreState) (p : Point) : StoreState :=
  fun i => if i = p.pid then Option.some p else st i

/-- Upsert a batch of points in order. -/
def upsertBatch (st : StoreState) (batch : List Point) : StoreState :=
  batch.foldl upsertOne st

/-- The points built by one `upload_data` call from position `start` on:
`enumerate(zip(embeddings[i:i+bs], payloads[i:i+bs]), start=i)` assigns each
record the integer id equal to its position within THIS call. -/
def mkPointsFrom (start : ℕ) : List (List ℚ × Payload) → List Point
  | [] => []
  | pr :: rest => ⟨start, pr.1, pr.2⟩ :: mkPointsFrom (start + 1) rest

/-- All points of one `upload_data` call: payloads are
`{"text": text, **clean_metadata(md)}` zipped with the embeddings, ids
are 0, 1, 2, ... . -/
def mkPoints (texts : List String) (embeds : List (List ℚ))
    (metas : List (List (String × PyVal))) : List Point :=
  mkPointsFrom 0
    (embeds.zip ((texts.zip metas).map (fun pr => Payload.mk pr.1 (cleanMetadata pr.2))))

/-- The batched upload loop of `upload_data` (lines 117-138), recursing on
the remaining point list; `bs` is `batch_size` (Python's `range` raises
before any upload when `batch_size = 0`, so only `bs ≥ 1` is meaningful).
On a failing batch the error is re-raised: the result is `.error k` (the
failing batch index) and the state keeps exactly the batches already
uploaded — no retry, no rollback. -/
def uploadLoop (ok : ℕ → Bool) (bs : ℕ) :
    ℕ → List Point → StoreState → Except ℕ Unit × StoreState
  | _, [], st => (.ok (), st)
  | k, p :: rest, st =>
    if ok k then
      uploadLoop ok bs (k + 1) (rest.drop (bs - 1)) (upsertBatch st (p :: rest.take (bs - 1)))
    else (.error k, st)
  termination_by _ rem _ => rem.length
  decreasing_by
    simp only [List.length_drop, List.length_cons]
    omega

/-- `upload_data`: clean the metadata, build the payloads and points, then
upload in batches of `bs` starting from collection state `st`. -/
def uploadData (ok : ℕ → Bool) (bs : ℕ) (texts : List String) (embeds : List (List ℚ))
    (metas : List (List (String × PyVal))) (st : StoreState) : Except ℕ Unit × StoreState :=
  uploadLoop ok bs 0 (mkPoints texts embeds metas) st

/-! ## C8: batch failure propagates, prior batches persist -/

lemma take_add_split {α : Type} (l : List α) (m n : ℕ) :
    l.take (m + n) = l.take m ++ (l.drop m).take n := by
  induction l generalizing m with
  | nil => simp
  | cons a rest ih =>
    cases m with
    | zero => simp
    | succ m =>
      rw [show m + 1 + n = (m + n) + 1 by omega]
      simp [List.take_succ_cons, List.drop_succ_cons, ih m]

lemma uploadLoop_fail (ok : ℕ → Bool) (bs : ℕ) (hbs : 1 ≤ bs) :
    ∀ (k k0 : ℕ) (rem : List Point) (st : StoreState),
      (∀ j, j < k → ok (k0 + j) = true) → ok (k0 + k) = false → k * bs < rem.length →
      uploadLoop ok bs k0 rem st = (.error (k0 + k), upsertBatch st (rem.take (k * bs))) := by
  intro k
  induction k with
  | zero =>
    intro k0 rem st _ hfail hlen
    cases rem with
    | nil => simp at hlen
    | cons p rest =>
      rw [uploadLoop]
      rw [if_neg (by simp at hfail ⊢; exact hfail)]
      simp [upsertBatch]
  | succ k ih =>
    intro k0 rem st hok hfail hlen
    cases rem with
    | nil => simp at hlen
    | cons p rest =>
      have h0 : ok k0 = true := by simpa using hok 0 (Nat.succ_pos k)
      rw [uploadLoop, if_pos h0]
      have hmul : (k + 1) * bs = k * bs + bs := by ring
      have hrec := ih (k0 + 1) (rest.drop (bs - 1))
        (upsertBatch st (p :: rest.take (bs - 1)))
        (fun j hj => by
          have := hok (j + 1) (by omega)
          simpa [Nat.add_assoc, Nat.add_comm 1 j] using this)
        (by simpa [Nat.add_assoc, Nat.add_comm 1 k] using hfail)
        (by
          simp only [List.length_drop]
          simp only [List.length_cons] at hlen
          omega)
      rw [hrec]
      have hidx : k0 + 1 + k = k0 + (k + 1) := by omega
      rw [hidx]
      congr 1
      show upsertBatch (upsertBatch st (p :: rest.take (bs - 1))) _ = _
      rw [upsertBatch, upsertBatch, ← List.foldl_append]
      show _ = upsertBatch st ((p :: rest).take ((k + 1) * bs))
      rw [upsertBatch]
      congr 1
      have hsplit : (k + 1) * bs = bs + k * bs := by ring
      rw [hsplit, take_add_split]
      have h1 : (p :: rest).take bs = p :: rest.take (bs - 1) := by
        obtain ⟨b, rfl⟩ : ∃ b, bs = b + 1 := ⟨bs - 1, by omega⟩
        simp
      have h2 : (p :: rest).drop bs = rest.drop (bs - 1) := by
        obtain ⟨b, rfl⟩ : ∃ b, bs = b + 1 := ⟨bs - 1, by omega⟩
        simp
      rw [h1, h2]

/-- C8: if every batch before `k` succeeds and batch `k`'s client call
raises, `upload_data` propagates the error (carrying the failing batch
index), retries nothing, and leaves the collection holding exactly the
batches before `k` — prior batches are not rolled back, so a partial
upload is the post-failure state. -/
theorem C8_upload_failure_propagates (ok : ℕ → Bool) (bs : ℕ) (texts : List String)
    (embeds : List (List ℚ)) (metas : List (List (String × PyVal)))
    (st : StoreState) (k : ℕ)
    (hbs : 1 ≤ bs)
    (hok : ∀ j, j < k → ok j = true) (hfail : ok k = false)
    (hk : k * bs < (mkPoints texts embeds metas).length) :
    uploadData ok bs texts embeds metas st =
      (.error k, upsertBatch st ((mkPoints texts embeds metas).take (k * bs))) := by
  have := uploadLoop_fail ok bs hbs k 0 (mkPoints texts embeds metas) st
    (fun j hj => by simpa using hok j hj) (by simpa using hfail) hk
  simpa [uploadData] using this

/-- Witness for C8: two one-point batches, the second batch's client call
fails; the result is the propagated error for batch 1 and a state holding
exactly the first batch. -/
theorem C8_witness :
    uploadData (fun j => j == 0) 1 ["a", "b"] [[1], [2]] [[], []] (fun _ => Option.none) =
      (.error 1,
        upsertBatch (fun _ => Option.none)
          ((mkPoints ["a", "b"] [[1], [2]] [[], []]).take 1)) :=
  C8_upload_failure_propagates (fun j => j == 0) 1 ["a", "b"] [[1], [2]] [[], []]
    (fun _ => Option.none) 1 (by decide)
    (fun j hj => by
      have : j = 0 := by omega
      subst this
      rfl)
    rfl (by decide)

/-! ## C10: ids restart at 0 on every call; later calls overwrite -/

lemma mkPointsFrom_get? :
    ∀ (l : List (List ℚ × Payload)) (start j : ℕ),
      (mkPointsFrom start l).get? j =
        (l.get? j).map (fun pr => Point.mk (start + j) pr.1 pr.2) := by
  intro l
  induction l with
  | nil => intro start j; simp [mkPointsFrom]
  | cons pr rest ih =>
    intro start j
    cases j with
    | zero => simp [mkPointsFrom]
    | succ j =>
      show (mkPointsFrom (start + 1) rest).get? j = _
      rw [ih (start + 1) j]
      have : start + 1 + j = start + (j + 1) := by omega
      rw [this]
      rfl

lemma get?_some_lt_length {α : Type} {l : List α} {n : ℕ} {a : α}
    (h : l.get? n = Option.some a) : n < l.length := by
  by_contra hn
  rw [List.get?_eq_none.2 (by omega)] at h
  simp at h

lemma mkPoints_pid (texts : List String) (embeds : List (List ℚ))
    (metas : List (List (String × PyVal))) (j : ℕ) (p : Point)
    (h : (mkPoints texts embeds metas).get? j = Option.some p) : p.pid = j := by
  rw [mkPoints, mkPointsFrom_get?] at h
  cases hz : (embeds.zip ((texts.zip metas).map
      (fun pr => Payload.mk pr.1 (cleanMetadata pr.2)))).get? j with
  | none => rw [hz] at h; simp at h
  | some pr =>
    rw [hz] at h
    have hh : Point.mk (0 + j) pr.1 pr.2 = p := by simpa using h
    rw [← hh]
    simp

lemma uploadLoop_ok (ok : ℕ → Bool) (bs : ℕ) (hall : ∀ j, ok j = true) :
    ∀ (n : ℕ) (rem : List Point), rem.length ≤ n → ∀ (k0 : ℕ) (st : StoreState),
      uploadLoop ok bs k0 rem st = (.ok (), upsertBatch st rem) := by
  intro n
  induction n with
  | zero =>
    intro rem h k0 st
    have : rem = [] := List.length_eq_zero.1 (Nat.le_zero.1 h)
    subst this
    simp [uploadLoop, upsertBatch]
  | succ n ih =>
    intro rem h k0 st
    cases rem with
    | nil => simp [uploadLoop, upsertBatch]
    | cons p rest =>
      rw [uploadLoop, if_pos (hall k0)]
      rw [ih (rest.drop (bs - 1))
        (by
          simp only [List.length_drop]
          simp only [List.length_cons] at h
          omega)
        (k0 + 1) _]
      congr 1
      rw [upsertBatch, upsertBatch, ← List.foldl_append]
      show _ = upsertBatch st (p :: rest)
      rw [upsertBatch]
      congr 1
      simp [List.take_append_drop]

/-- A successful `upload_data` call upserts exactly its point list. -/
lemma uploadData_ok (ok : ℕ → Bool) (bs : ℕ) (hall : ∀ j, ok j = true)
    (texts : List String) (embeds : List (List ℚ)) (metas : List (List (String × PyVal)))
    (st : StoreState) :
    uploadData ok bs texts embeds metas st
      = (.ok (), upsertBatch st (mkPoints texts embeds metas)) :=
  uploadLoop_ok ok bs hall _ _ le_rfl 0 st

lemma upsertBatch_from :
    ∀ (pts : List Point) (off : ℕ) (st : StoreState),
      (∀ j p, pts.get? j = Option.some p → p.pid = off + j) →
      ∀ i, upsertBatch st pts i =
        if off ≤ i ∧ i - off < pts.length then pts.get? (i - off) else st i := by
  intro pts
  induction pts with
  | nil =>
    intro off st _ i
    simp [upsertBatch]
  | cons p rest ih =>
    intro off st hpid i
    have hp : p.pid = off := by simpa using hpid 0 p rfl
    have hrest : ∀ j q, rest.get? j = Option.some q → q.pid = (off + 1) + j := by
      intro j q hq
      have := hpid (j + 1) q (by simpa using hq)
      omega
    show upsertBatch (upsertOne st p) rest i = _
    rw [ih (off + 1) (upsertOne st p) hrest i]
    by_cases h1 : off + 1 ≤ i ∧ i - (off + 1) < rest.length
    · rw [if_pos h1, if_pos (by simp only [List.length_cons]; omega)]
      have : i - off = (i - (off + 1)) + 1 := by omega
      rw [this]
      rfl
    · rw [if_neg h1]
      by_cases h2 : i = off
      · subst h2
        rw [if_pos (by simp only [List.length_cons]; omega)]
        have : i - i = 0 := by omega
        rw [this]
        show (if i = p.pid then Option.some p else st i) = Option.some p
        rw [if_pos (by omega)]
      · rw [if_neg (by simp only [List.length_cons]; omega)]
        show (if i = p.pid then Option.some p else st i) = st i
        rw [if_neg (by omega)]

/-- C10: within one `upload_data` call the record at position `j` gets id
`j` (ids restart at 0 on every call, independent of earlier uploads), and
after two successive all-successful calls the collection's point at each id
`j` present in both calls is the SECOND call's record `j` — the second call
overwrites the first call's points of the same ids. -/
theorem C10_ids_restart_and_overwrite (ok1 ok2 : ℕ → Bool) (bs : ℕ)
    (t1 t2 : List String) (e1 e2 : List (List ℚ)) (m1 m2 : List (List (String × PyVal)))
    (st0 : StoreState) (j : ℕ) (p1 p2 : Point)
    (hall1 : ∀ i, ok1 i = true) (hall2 : ∀ i, ok2 i = true)
    (hp1 : (mkPoints t1 e1 m1).get? j = Option.some p1)
    (hp2 : (mkPoints t2 e2 m2).get? j = Option.some p2) :
    p1.pid = j ∧ p2.pid = j ∧
      (uploadData ok1 bs t1 e1 m1 st0).2 j = Option.some p1 ∧
      (uploadData ok2 bs t2 e2 m2 (uploadData ok1 bs t1 e1 m1 st0).2).2 j
        = Option.some p2 := by
  have hlen1 : j < (mkPoints t1 e1 m1).length := get?_some_lt_length hp1
  have hlen2 : j < (mkPoints t2 e2 m2).length := get?_some_lt_length hp2
  rw [uploadData_ok ok1 bs hall1, uploadData_ok ok2 bs hall2]
  refine ⟨mkPoints_pid t1 e1 m1 j p1 hp1, mkPoints_pid t2 e2 m2 j p2 hp2, ?_, ?_⟩
  · show upsertBatch st0 (mkPoints t1 e1 m1) j = Option.some p1
    rw [upsertBatch_from (mkPoints t1 e1 m1) 0 st0
      (fun j p h => by simpa using mkPoints_pid t1 e1 m1 j p h) j]
    rw [if_pos ⟨Nat.zero_le j, by simpa using hlen1⟩]
    simpa using hp1
  · show upsertBatch (Except.ok (), upsertBatch st0 (mkPoints t1 e1 m1)).2
        (mkPoints t2 e2 m2) j = Option.some p2
    rw [upsertBatch_from (mkPoints t2 e2 m2) 0 _
      (fun j p h => by simpa using mkPoints_pid t2 e2 m2 j p h) j]
    rw [if_pos ⟨Nat.zero_le j, by simpa using hlen2⟩]
    simpa using hp2

/-- Witness for C10: two single-record uploads; both records get id 0 and
the second upload's record replaces the first's. -/
theorem C10_witness :
    (Point.mk 0 [1] (Payload.mk "a" [])).pid = 0 ∧
      (Point.mk 0 [2] (Payload.mk "b" [])).pid = 0 ∧
      (uploadData (fun _ => true) 1 ["a"] [[1]] [[]] (fun _ => Option.none)).2 0
        = Option.some (Point.mk 0 [1] (Payload.mk "a" [])) ∧
      (uploadData (fun _ => true) 1 ["b"] [[2]] [[]]
          (uploadData (fun _ => true) 1 ["a"] [[1]] [[]] (fun _ => Option.none)).2).2 0
        = Option.some (Point.mk 0 [2] (Payload.mk "b" [])) :=
  C10_ids_restart_and_overwrite (fun _ => true) (fun _ => true) 1
    ["a"] ["b"] [[1]] [[2]] [[]] [[]] (fun _ => Option.none) 0
    (Point.mk 0 [1] (Payload.mk "a" [])) (Point.mk 0 [2] (Payload.mk "b" []))
    (fun _ => rfl) (fun _ => rfl) rfl rfl

/-! ## C9: `get_history` tail slicing (redis_memory.py lines 73-94) -/

/-- A Conversation Turn as stored by `RedisMemory.add_message`. -/
structure Turn where
  timestamp : String
  user : String
  assistant : String
  deriving DecidableEq, Repr

/-- Python `history[-n:]` for a non-negative `n`: note `-0 == 0`, so `n = 0`
slices from the front and yields the WHOLE list, not the last 0 turns. -/
def pyTailSlice (l : List Turn) (n : ℕ) : List Turn :=
  if n = 0 then l else l.drop (l.length - n)

/-- `RedisMemory.get_history` on a reachable backend: the stored session
list in order, tail-sliced when `limit` is not `None`. -/
def getHistory (history : List Turn) (limit : Option ℕ) : List Turn :=
  match limit with
  | Option.none => history
  | Option.some n => pyTailSlice history n

/-- C9 counterexample: `get_history(limit=0)` on a one-turn history returns
the whole history (Python `history[-0:]` is `history[0:]`), not the last
`min(0, 1) = 0` turns — refuting the claim at `n = 0`. -/
theorem C9_counterexample :
    getHistory [⟨"t1", "u1", "a1"⟩] (Option.some 0) = [⟨"t1", "u1", "a1"⟩] ∧
      ([⟨"t1", "u1", "a1"⟩] : List Turn) ≠ [] :=
  ⟨rfl, by decide⟩

/-- C9 (amended): for `n ≥ 1`, `get_history(limit=n)` returns exactly the
last `min(n, length)` turns (a suffix of the history, most-recent-last);
`get_history(limit=None)` returns the whole history in order; and at
`n = 0` the slice quirk returns the whole history as well. -/
theorem C9_amended_get_history (history : List Turn) (n : ℕ) (hn : 1 ≤ n) :
    (getHistory history (Option.some n)).length = min n history.length ∧
      getHistory history (Option.some n) <:+ history ∧
      getHistory history Option.none = history ∧
      getHistory history (Option.some 0) = history := by
  have hne : n ≠ 0 := by omega
  refine ⟨?_, ?_, rfl, by simp [getHistory, pyTailSlice]⟩
  · simp only [getHistory, pyTailSlice, if_neg hne, List.length_drop]
    omega
  · simp only [getHistory, pyTailSlice, if_neg hne]
    exact List.drop_suffix _ _

/-- Witness for C9 (amended) on a two-turn history with limit 1. -/
theorem C9_witness :
    (getHistory [⟨"t1", "u1", "a1"⟩, ⟨"t2", "u2", "a2"⟩] (Option.some 1)).length
        = min 1 ([⟨"t1", "u1", "a1"⟩, ⟨"t2", "u2", "a2"⟩] : List Turn).length ∧
      getHistory [⟨"t1", "u1", "a1"⟩, ⟨"t2", "u2", "a2"⟩] (Option.some 1)
        <:+ [⟨"t1", "u1", "a1"⟩, ⟨"t2", "u2", "a2"⟩] ∧
      getHistory [⟨"t1", "u1", "a1"⟩, ⟨"t2", "u2", "a2"⟩] Option.none
        = [⟨"t1", "u1", "a1"⟩, ⟨"t2", "u2", "a2"⟩] ∧
      getHistory [⟨"t1", "u1", "a1"⟩, ⟨"t2", "u2", "a2"⟩] (Option.some 0)
        = [⟨"t1", "u1", "a1"⟩, ⟨"t2", "u2", "a2"⟩] :=
  C9_amended_get_history [⟨"t1", "u1", "a1"⟩, ⟨"t2", "u2", "a2"⟩] 1 (by decide)

end CustomerSupport
